import Mathlib

/-! Verification of `internal/provider/resource_dns_record.go` of the
terraform-provider-porkbun repository.

The Go source is shallowly embedded: pure computations become Lean
functions; the client calls performed by each operation are modelled by
an oracle function `Nat → outcome` giving the outcome of the i-th
attempt, and each executor/operation additionally reports the observable
trace of its run (the list of back-off delays it slept, the number of
attempts it made, and the API calls it issued).  Go integers are `Nat`
or `Int` (no overflow is relevant here), Go strings are `String`.
-/

namespace Porkbun

/-- Error shapes recognised by the retry executors (spec §6): the porkbun
library's `Status` (an API-level status object with a status string and an
`Error()` accessor), `*ServerError` (a server fault with a numeric status
code and an `Error()` accessor), and any other `error`.  The `msg` field of
each constructor is the string its `Error()` method returns. -/
inductive PError where
  | status (st : String) (msg : String)
  | server (code : Nat) (msg : String)
  | generic (msg : String)
deriving DecidableEq

/-- What Go's `%s` formatting of the error produces: its `Error()` string. -/
def PError.message : PError → String
  | .status _ m => m
  | .server _ m => m
  | .generic m => m

/-- `%s` formatting of a possibly-nil Go error (`nil` only arises for an
exhaustion message when `attempts = 0`, where Go prints `%!s(<nil>)`). -/
def errMsgOpt : Option PError → String
  | some e => e.message
  | none => "%!s(<nil>)"

/-- `var retryableCodes = []int{503}` (line 28). -/
def retryableCodes : List Nat := [503]

/-- `var ( sleep = 10 )` (lines 30-32): the package-level initial back-off
delay.  Go passes `int` arguments by value, so the `sleep *= 2` inside the
executors mutates the callee's local copy only; the package variable is
never written and is embedded as a constant. -/
def sleep : Nat := 10

/-- `func isRetryable(status int) bool` (lines 332-334). -/
def isRetryable (status : Nat) : Bool :=
  retryableCodes.contains status

/-- `fmt.Errorf("after %d attempts, last error: %s", attempts, err)`
(lines 301 and 321). -/
def exhaustMsg (attempts : Nat) (lastErr : Option PError) : String :=
  "after " ++ toString attempts ++ " attempts, last error: " ++ errMsgOpt lastErr

/-- Observable outcome of one run of the generic executor `retry` (lines
278-302): the returned `(result, err)` pair (the error rendered as the
string Go's `fmt.Errorf` built), together with the trace of back-off
delays slept (in order, in seconds) and the number of calls made to `f`. -/
structure RetryOut (T : Type) where
  result : T
  error : Option String
  delays : List Nat
  attemptsMade : Nat
deriving DecidableEq

/-- Observable outcome of one run of `retrySingleReturn` (lines 304-322). -/
structure SingleOut where
  error : Option String
  delays : List Nat
  attemptsMade : Nat
deriving DecidableEq

/-- The loop of `func retry[T any](attempts int, sleep int, f func() (T, error))`
(lines 279-301), embedded with explicit state: `remaining` counts the loop
iterations still allowed (`attempts - i`), `i` is the loop index, `slp` the
current (call-local) delay value, and `lastRes`/`lastErr` the named return
values `result`/`err` carried so far (used by the exhaustion return on
line 301).  `f i` is the outcome of the i-th call to `f`.  Each iteration
with `i > 0` first sleeps `slp` and doubles it (lines 280-283); a `nil`
error returns the result (285-287); a `porkbun.Status` whose `Status`
field is not `"SUCCESS"` returns the terminal wrap (288-293); a
`*porkbun.ServerError` with a non-retryable code returns the terminal wrap
(294-299); anything else falls through and consumes the attempt. -/
def retryLoop {T : Type} (attempts : Nat) (f : Nat → T × Option PError) :
    Nat → Nat → Nat → T → Option PError → RetryOut T
  | 0, _, _, lastRes, lastErr => ⟨lastRes, some (exhaustMsg attempts lastErr), [], 0⟩
  | remaining + 1, i, slp, _, _ =>
    let pre : List Nat := if 0 < i then [slp] else []
    let slp' : Nat := if 0 < i then 2 * slp else slp
    let v := (f i).1
    match (f i).2 with
    | none => ⟨v, none, pre, 1⟩
    | some (.status st msg) =>
      if st ≠ "SUCCESS" then
        ⟨v, some ("cannot be retried: " ++ msg), pre, 1⟩
      else
        let rest := retryLoop attempts f remaining (i + 1) slp' v (some (.status st msg))
        ⟨rest.result, rest.error, pre ++ rest.delays, rest.attemptsMade + 1⟩
    | some (.server code msg) =>
      if ¬ isRetryable code then
        ⟨v, some ("received error is not retryable: " ++ msg), pre, 1⟩
      else
        let rest := retryLoop attempts f remaining (i + 1) slp' v (some (.server code msg))
        ⟨rest.result, rest.error, pre ++ rest.delays, rest.attemptsMade + 1⟩
    | some (.generic msg) =>
        let rest := retryLoop attempts f remaining (i + 1) slp' v (some (.generic msg))
        ⟨rest.result, rest.error, pre ++ rest.delays, rest.attemptsMade + 1⟩

/-- `func retry[T any](attempts int, sleep int, f func() (T, error))`
(lines 278-302).  `zero` is the zero value of `T` that Go's named return
`result T` starts from. -/
def retry {T : Type} (attempts slp : Nat) (zero : T) (f : Nat → T × Option PError) :
    RetryOut T :=
  retryLoop attempts f attempts 0 slp zero none

/-- The loop of `func retrySingleReturn(attempts int, sleep int, f func() error)`
(lines 305-321).  Identical back-off structure to `retryLoop`, but the
only failure shape it inspects is `*porkbun.ServerError` (lines 314-319);
in particular a `porkbun.Status` failure falls through like any other
error.  The terminal wrap is line 317, the exhaustion wrap line 321. -/
def retrySingleLoop (attempts : Nat) (f : Nat → Option PError) :
    Nat → Nat → Nat → Option PError → SingleOut
  | 0, _, _, lastErr => ⟨some (exhaustMsg attempts lastErr), [], 0⟩
  | remaining + 1, i, slp, _ =>
    let pre : List Nat := if 0 < i then [slp] else []
    let slp' : Nat := if 0 < i then 2 * slp else slp
    match f i with
    | none => ⟨none, pre, 1⟩
    | some (.server code msg) =>
      if ¬ isRetryable code then
        ⟨some ("received error is not retryable: " ++ msg), pre, 1⟩
      else
        let rest := retrySingleLoop attempts f remaining (i + 1) slp' (some (.server code msg))
        ⟨rest.error, pre ++ rest.delays, rest.attemptsMade + 1⟩
    | some e =>
        let rest := retrySingleLoop attempts f remaining (i + 1) slp' (some e)
        ⟨rest.error, pre ++ rest.delays, rest.attemptsMade + 1⟩

/-- `func retrySingleReturn(attempts int, sleep int, f func() error)`
(lines 304-322). -/
def retrySingleReturn (attempts slp : Nat) (f : Nat → Option PError) : SingleOut :=
  retrySingleLoop attempts f attempts 0 slp none

/-- A failed attempt outcome that `retry` does NOT classify terminal, i.e.
that falls through both type-inspection blocks and consumes the attempt:
a `Status` whose status string is exactly `"SUCCESS"`, a `ServerError`
with a retryable code, or any other error shape. -/
def retriesAgain : Option PError → Bool
  | none => false
  | some (.status st _) => decide (st = "SUCCESS")
  | some (.server code _) => isRetryable code
  | some (.generic _) => true

/-- A failed attempt outcome that `retrySingleReturn` does NOT classify
terminal: everything except a `ServerError` with a non-retryable code. -/
def retriesAgainSingle : Option PError → Bool
  | none => false
  | some (.server code _) => isRetryable code
  | some _ => true

/-- `porkbun.Record` (the library's record type), restricted to the fields
this resource reads or writes: `ID`, `Name`, `Type`, `Content`, `TTL`,
`Prio`, `Notes` — all strings.  Go zero values are the defaults. -/
structure Record where
  id : String := ""
  name : String := ""
  typ : String := ""
  content : String := ""
  ttl : String := ""
  prio : String := ""
  notes : String := ""
deriving DecidableEq

/-- `porkbunDnsRecordResourceData` (lines 98-107): the managed state, all
`types.String` values (the `Value` field of each). -/
structure RecordData where
  id : String := ""
  name : String := ""
  typ : String := ""
  content : String := ""
  ttl : String := ""
  notes : String := ""
  prio : String := ""
  domain : String := ""
deriving DecidableEq

/-- The `porkbun.Record` payload literal built identically by `Create`
(lines 124-131) and `Update` (lines 207-214) from the declared fields;
`ID` is left at its zero value. -/
def buildRecord (d : RecordData) : Record :=
  { name := d.name, typ := d.typ, content := d.content,
    ttl := d.ttl, prio := d.prio, notes := d.notes }

/-- One call to the external porkbun client, with the arguments passed. -/
inductive ApiCall where
  | createRecord (domain : String) (record : Record)
  | retrieveRecords (domain : String)
  | editRecord (domain : String) (id : Int) (record : Record)
  | deleteRecord (domain : String) (id : Int)
deriving DecidableEq

/-- `strconv.Atoi`: an optional `+`/`-` sign followed by at least one
decimal digit, nothing else.  (The 64-bit range error of the real
`strconv.Atoi` is not modelled; no claim depends on it.) -/
def atoi : String → Option Int := fun s =>
  let (sign, digits) : Int × List Char :=
    match s.data with
    | '+' :: rest => (1, rest)
    | '-' :: rest => (-1, rest)
    | l => (1, l)
  if digits ≠ [] ∧ digits.all (·.isDigit) then
    some (sign * (digits.foldl (fun acc c => 10 * acc + (c.toNat - '0'.toNat)) 0 : Nat))
  else none

/-- The error text `strconv.Atoi` produces for a syntactically invalid
input, as rendered by `%s`. -/
def atoiErr (s : String) : String :=
  "strconv.Atoi: parsing \"" ++ s ++ "\": invalid syntax"

/-- `strings.ReplaceAll` on character lists (for a non-empty `old`, the
only way it is used here): scan left to right, replacing each
non-overlapping occurrence of `old` by `new`.  The fuel is at least the
number of scan steps (each step consumes at least one character), so
passing `s.length` computes the exact Go result. -/
def replaceAllAux (old new : List Char) : Nat → List Char → List Char
  | 0, s => s
  | _ + 1, [] => []
  | fuel + 1, c :: rest =>
    if old.isPrefixOf (c :: rest) then
      new ++ replaceAllAux old new fuel ((c :: rest).drop old.length)
    else
      c :: replaceAllAux old new fuel rest

/-- `strings.ReplaceAll(s, old, new)` for non-empty `old`. -/
def replaceAll (s old new : String) : String :=
  ⟨replaceAllAux old.data new.data s.data.length s.data⟩

/-- Does `old` occur as a contiguous run anywhere in the list? -/
def hasOccurrence (old : List Char) : List Char → Bool
  | [] => old.isPrefixOf []
  | c :: rest => old.isPrefixOf (c :: rest) || hasOccurrence old rest

/-- The name derivation applied by `Read` to a matching record (lines
176-182): the empty string when the remote name equals the stored domain
exactly, otherwise `strings.ReplaceAll(record.Name, "."+domain, "")`. -/
def nameFromRemote (remoteName domain : String) : String :=
  if domain = remoteName then "" else replaceAll remoteName ("." ++ domain) ""

/-- The scan loop of `Read` (lines 171-188): each record whose `ID` equals
the stored id overwrites content, display name (via the derivation above),
notes, TTL and type; `id`, `prio` and `domain` are never written. -/
def readApply (records : List Record) (data : RecordData) : RecordData :=
  records.foldl
    (fun d rec =>
      if rec.id = d.id then
        { d with
          content := rec.content,
          name := nameFromRemote rec.name d.domain,
          notes := rec.notes,
          ttl := rec.ttl,
          typ := rec.typ }
      else d)
    data

/-- `func (r porkbunDnsRecordResource) getRecords` (lines 324-330): wraps
one `RetrieveRecords` outcome, substituting the empty list on failure. -/
def getRecords (out : List Record × Option PError) : List Record × Option PError :=
  match out.2 with
  | some e => ([], some e)
  | none => (out.1, none)

/-- Outcome of one reconciler operation: the diagnostics added (summary,
detail), the state persisted by `resp.State.Set` (`none` when the handler
returned without setting it), and the client calls issued with their
arguments. -/
structure OpOut where
  diags : List (String × String)
  state : Option RecordData
  apiCalls : List ApiCall
deriving DecidableEq

/-- `Create` (lines 113-145), from the point where the declared data has
been decoded successfully (the config-decoding diagnostics of lines
117-122 are not modelled).  `createF i` is the `(id, err)` outcome of the
i-th `client.CreateRecord` call.  Note line 141 assigns
`data.Id = fmt.Sprint(id)` and line 143 sets the state unconditionally,
error or not. -/
def Create (attempts slp : Nat) (configData : RecordData)
    (createF : Nat → Int × Option PError) : OpOut :=
  let record := buildRecord configData
  let co := retry attempts slp (0 : Int) createF
  let diags : List (String × String) :=
    match co.error with
    | some m => [("Error creating DNS Record", "Error: " ++ m)]
    | none => []
  let data' := { configData with id := toString co.result }
  ⟨diags, some data', List.replicate co.attemptsMade (.createRecord configData.domain record)⟩

/-- `Read` (lines 147-192), from the point where the stored state has been
decoded.  `retrieveF i` is the outcome of the i-th
`client.RetrieveRecords` call (wrapped through `getRecords`).  On a
listing failure the error diagnostic is added (lines 160-168) but the
handler continues and still sets the state (line 190). -/
def Read (attempts slp : Nat) (data : RecordData)
    (retrieveF : Nat → List Record × Option PError) : OpOut :=
  let ro := retry attempts slp ([] : List Record) (fun i => getRecords (retrieveF i))
  let diags : List (String × String) :=
    match ro.error with
    | some m => [("Could not retrieve records for " ++ data.domain ++ ".", "Error: " ++ m)]
    | none => []
  ⟨diags, some (readApply ro.result data),
    List.replicate ro.attemptsMade (.retrieveRecords data.domain)⟩

/-- `Update` (lines 194-239), from the point where the plan and the stored
id have been decoded.  `editF i` is the outcome of the i-th
`client.EditRecord` call.  A failed `strconv.Atoi` (lines 216-222) adds a
diagnostic but does NOT return: the edit call on line 224 still runs, with
`intId` at its zero value 0.  State is only persisted when no diagnostic
errored (lines 232-238), and the stored id is re-written over the plan's
id field (line 237). -/
def Update (attempts slp : Nat) (planData : RecordData) (storedId : String)
    (editF : Nat → Option PError) : OpOut :=
  let record := buildRecord planData
  let (intId, convDiags) : Int × List (String × String) :=
    match atoi storedId with
    | some n => (n, [])
    | none => (0, [("Error converting ID to a string", "Error: " ++ atoiErr storedId)])
  let eo := retrySingleReturn attempts slp editF
  let editDiags : List (String × String) :=
    match eo.error with
    | some m => [("Error updating the record", "Error " ++ m)]
    | none => []
  let diags := convDiags ++ editDiags
  let calls := List.replicate eo.attemptsMade (ApiCall.editRecord planData.domain intId record)
  if diags = [] then ⟨diags, some { planData with id := storedId }, calls⟩
  else ⟨diags, none, calls⟩

/-- `Delete` (lines 241-271), from the point where the stored state has
been decoded.  `deleteF i` is the outcome of the i-th
`client.DeleteRecord` call.  As in `Update`, a failed `strconv.Atoi`
(lines 252-258) adds a diagnostic but does not return, so the delete call
on line 260 still runs with `intId = 0`.  The handler never sets state. -/
def Delete (attempts slp : Nat) (state : RecordData)
    (deleteF : Nat → Option PError) : OpOut :=
  let (intId, convDiags) : Int × List (String × String) :=
    match atoi state.id with
    | some n => (n, [])
    | none => (0, [("Error converting ID to a string", "Error: " ++ atoiErr state.id)])
  let dOut := retrySingleReturn attempts slp deleteF
  let dDiags : List (String × String) :=
    match dOut.error with
    | some m => [("Error deleting record", "Error: " ++ m)]
    | none => []
  ⟨convDiags ++ dDiags, none,
    List.replicate dOut.attemptsMade (.deleteRecord state.domain intId)⟩

/-! Helper lemmas about the retry loops. -/

/-- Doubling the base shifts the exponent in a delay trace. -/
lemma range_map_double (slp k : Nat) :
    slp :: (List.range k).map (fun j => 2 * slp * 2 ^ j)
      = (List.range (k + 1)).map (fun j => slp * 2 ^ j) := by
  rw [List.range_succ_eq_map, List.map_cons, List.map_map]
  have h : ((fun j => slp * 2 ^ j) ∘ Nat.succ) = fun j => 2 * slp * 2 ^ j := by
    funext j
    simp [Function.comp, pow_succ]
    ring
  rw [h]
  simp

/-- Unfolding one iteration of `retryLoop` on a failure that falls through
both classification blocks. -/
lemma retryLoop_step_retry {T : Type} (attempts : Nat) (f : Nat → T × Option PError)
    (remaining i slp : Nat) (r0 : T) (e0 : Option PError) (e : PError)
    (h : (f i).2 = some e) (hr : retriesAgain (f i).2 = true) :
    retryLoop attempts f (remaining + 1) i slp r0 e0 =
      (let pre : List Nat := if 0 < i then [slp] else []
       let slp' : Nat := if 0 < i then 2 * slp else slp
       let rest := retryLoop attempts f remaining (i + 1) slp' (f i).1 (some e)
       ⟨rest.result, rest.error, pre ++ rest.delays, rest.attemptsMade + 1⟩) := by
  rw [h] at hr
  cases e with
  | status st msg =>
    simp only [retriesAgain, decide_eq_true_eq] at hr
    simp [retryLoop, h, hr]
  | server code msg =>
    simp only [retriesAgain] at hr
    simp [retryLoop, h, hr]
  | generic msg =>
    simp [retryLoop, h]

/-- Any iteration of the loop makes at least one call to `f`. -/
lemma retryLoop_attempts_pos {T : Type} (attempts : Nat) (f : Nat → T × Option PError)
    (remaining i slp : Nat) (r0 : T) (e0 : Option PError) (hrem : 0 < remaining) :
    0 < (retryLoop attempts f remaining i slp r0 e0).attemptsMade := by
  obtain ⟨m, rfl⟩ : ∃ m, remaining = m + 1 := ⟨remaining - 1, by omega⟩
  rcases h : (f i).2 with _ | e
  · simp [retryLoop, h]
  · cases e with
    | status st msg =>
      by_cases hst : st = "SUCCESS" <;> simp [retryLoop, h, hst]
    | server code msg =>
      by_cases hc : isRetryable code = true <;> simp [retryLoop, h, hc]
    | generic msg => simp [retryLoop, h]

/-- After `k` fall-through failures starting at a positive loop index, a
success at the next attempt returns its result with the doubling delay
trace. -/
lemma retryLoop_success {T : Type} (attempts : Nat) (f : Nat → T × Option PError) :
    ∀ (k remaining i slp : Nat) (r0 : T) (e0 : Option PError),
      0 < i → k < remaining →
      (∀ j, j < k → retriesAgain (f (i + j)).2 = true) →
      (f (i + k)).2 = none →
      retryLoop attempts f remaining i slp r0 e0 =
        ⟨(f (i + k)).1, none, (List.range (k + 1)).map (fun j => slp * 2 ^ j), k + 1⟩ := by
  intro k
  induction k with
  | zero =>
    intro remaining i slp r0 e0 hi hk hfail hsucc
    obtain ⟨m, rfl⟩ : ∃ m, remaining = m + 1 := ⟨remaining - 1, by omega⟩
    obtain ⟨i', rfl⟩ : ∃ i', i = i' + 1 := ⟨i - 1, by omega⟩
    simp only [Nat.add_zero] at hsucc ⊢
    simp [retryLoop, hsucc, List.range_succ]
  | succ k ih =>
    intro remaining i slp r0 e0 hi hk hfail hsucc
    obtain ⟨m, rfl⟩ : ∃ m, remaining = m + 1 := ⟨remaining - 1, by omega⟩
    have h0 : retriesAgain (f i).2 = true := by simpa using hfail 0 (by omega)
    rcases he : (f i).2 with _ | e
    · rw [he] at h0; simp [retriesAgain] at h0
    · rw [retryLoop_step_retry attempts f m i slp r0 e0 e he h0]
      simp only [hi, if_true]
      have hfail' : ∀ j, j < k → retriesAgain (f (i + 1 + j)).2 = true := by
        intro j hj
        have hidx : i + 1 + j = i + (j + 1) := by omega
        rw [hidx]
        exact hfail (j + 1) (by omega)
      have hsucc' : (f (i + 1 + k)).2 = none := by
        have hidx : i + 1 + k = i + (k + 1) := by omega
        rw [hidx]; exact hsucc
      rw [ih m (i + 1) (2 * slp) (f i).1 (some e) (by omega) (by omega) hfail' hsucc']
      have hidx : i + 1 + k = i + (k + 1) := by omega
      simp only [hidx]
      have hd : slp :: (List.range (k + 1)).map (fun j => 2 * slp * 2 ^ j)
          = (List.range (k + 2)).map (fun j => slp * 2 ^ j) := range_map_double slp (k + 1)
      simp [hd]

/-- `retry` after `k` fall-through failures followed by a success: the
success's result is returned, with `k` delays of `slp * 2^j`. -/
lemma retry_success {T : Type} (attempts slp k : Nat) (z : T) (f : Nat → T × Option PError)
    (hk : k < attempts)
    (hfail : ∀ j, j < k → retriesAgain (f j).2 = true)
    (hsucc : (f k).2 = none) :
    retry attempts slp z f =
      ⟨(f k).1, none, (List.range k).map (fun j => slp * 2 ^ j), k + 1⟩ := by
  obtain ⟨a, rfl⟩ : ∃ a, attempts = a + 1 := ⟨attempts - 1, by omega⟩
  cases k with
  | zero =>
    simp [retry, retryLoop, hsucc]
  | succ k =>
    have h0 : retriesAgain (f 0).2 = true := hfail 0 (by omega)
    rcases he : (f 0).2 with _ | e
    · rw [he] at h0; simp [retriesAgain] at h0
    · rw [retry, retryLoop_step_retry (a + 1) f a 0 slp z none e he h0]
      simp only [lt_self_iff_false, if_false, Nat.zero_add]
      have hfail' : ∀ j, j < k → retriesAgain (f (1 + j)).2 = true := by
        intro j hj
        have hidx : 1 + j = j + 1 := by omega
        rw [hidx]; exact hfail (j + 1) (by omega)
      have hsucc' : (f (1 + k)).2 = none := by
        have hidx : 1 + k = k + 1 := by omega
        rw [hidx]; exact hsucc
      rw [retryLoop_success (a + 1) f k a 1 slp (f 0).1 (some e) (by omega) (by omega)
        hfail' hsucc']
      have hidx : 1 + k = k + 1 := by omega
      simp [hidx]

/-- `retry` on an immediately successful first attempt. -/
lemma retry_first_success {T : Type} (attempts slp : Nat) (z : T) (f : Nat → T × Option PError)
    (ha : 0 < attempts) (h0 : (f 0).2 = none) :
    retry attempts slp z f = ⟨(f 0).1, none, [], 1⟩ := by
  have h := retry_success attempts slp 0 z f ha (by omega) h0
  simpa using h

/-- `retry` on a first attempt failing with a non-`"SUCCESS"` API status:
terminal after exactly one attempt, no delay, wrapping the reason. -/
lemma retry_first_terminal_status {T : Type} (attempts slp : Nat) (z : T)
    (f : Nat → T × Option PError) (st msg : String)
    (ha : 0 < attempts) (h0 : (f 0).2 = some (.status st msg)) (hst : st ≠ "SUCCESS") :
    retry attempts slp z f = ⟨(f 0).1, some ("cannot be retried: " ++ msg), [], 1⟩ := by
  obtain ⟨a, rfl⟩ : ∃ a, attempts = a + 1 := ⟨attempts - 1, by omega⟩
  simp [retry, retryLoop, h0, hst]

/-- `retry` on a first attempt failing with a non-retryable server code:
terminal after exactly one attempt, no delay, wrapping the reason. -/
lemma retry_first_terminal_server {T : Type} (attempts slp : Nat) (z : T)
    (f : Nat → T × Option PError) (code : Nat) (msg : String)
    (ha : 0 < attempts) (h0 : (f 0).2 = some (.server code msg))
    (hc : isRetryable code = false) :
    retry attempts slp z f = ⟨(f 0).1, some ("received error is not retryable: " ++ msg), [], 1⟩ := by
  obtain ⟨a, rfl⟩ : ∃ a, attempts = a + 1 := ⟨attempts - 1, by omega⟩
  simp [retry, retryLoop, h0, hc]

/-- Exhaustion of the loop: when every remaining attempt fails and falls
through classification, the loop uses all attempts and reports the
exhaustion error built from the last failure. -/
lemma retryLoop_exhaust {T : Type} (attempts : Nat) (f : Nat → T × Option PError) :
    ∀ (remaining i slp : Nat) (r0 : T) (e0 : Option PError),
      0 < remaining →
      (∀ j, j < remaining → retriesAgain (f (i + j)).2 = true) →
      (retryLoop attempts f remaining i slp r0 e0).error
          = some (exhaustMsg attempts (f (i + remaining - 1)).2) ∧
        (retryLoop attempts f remaining i slp r0 e0).attemptsMade = remaining := by
  intro remaining
  induction remaining with
  | zero => intro _ _ _ _ h; omega
  | succ m ih =>
    intro i slp r0 e0 _ hfail
    have h0 : retriesAgain (f i).2 = true := by simpa using hfail 0 (by omega)
    rcases he : (f i).2 with _ | e
    · rw [he] at h0; simp [retriesAgain] at h0
    · rw [retryLoop_step_retry attempts f m i slp r0 e0 e he h0]
      rcases Nat.eq_zero_or_pos m with hm | hm
      · subst hm
        simp [retryLoop, he]
      · have hfail' : ∀ j, j < m → retriesAgain (f (i + 1 + j)).2 = true := by
          intro j hj
          have hidx : i + 1 + j = i + (j + 1) := by omega
          rw [hidx]; exact hfail (j + 1) (by omega)
        have hrec := ih (i + 1) (if 0 < i then 2 * slp else slp) (f i).1 (some e) hm hfail'
        have hidx : i + 1 + m - 1 = i + (m + 1) - 1 := by omega
        rw [hidx] at hrec
        simp only []
        exact ⟨by simp [hrec.1], by simp [hrec.2]⟩

/-- `retry` exhaustion: `attempts` fall-through failures consume every
attempt and report the count and the last failure. -/
lemma retry_exhaust {T : Type} (attempts slp : Nat) (z : T) (f : Nat → T × Option PError)
    (ha : 0 < attempts)
    (hfail : ∀ j, j < attempts → retriesAgain (f j).2 = true) :
    (retry attempts slp z f).error
        = some (exhaustMsg attempts (f (attempts - 1)).2) ∧
      (retry attempts slp z f).attemptsMade = attempts := by
  have h := retryLoop_exhaust attempts f attempts 0 slp z none ha (by simpa using hfail)
  simpa using h

/-- The result value the loop carries out of an exhaustion: the last
attempt's returned value (Go's named return `result`, last assigned on
line 284). -/
lemma retryLoop_exhaust_result {T : Type} (attempts : Nat) (f : Nat → T × Option PError) :
    ∀ (remaining i slp : Nat) (r0 : T) (e0 : Option PError),
      0 < remaining →
      (∀ j, j < remaining → retriesAgain (f (i + j)).2 = true) →
      (retryLoop attempts f remaining i slp r0 e0).result = (f (i + remaining - 1)).1 := by
  intro remaining
  induction remaining with
  | zero => intro _ _ _ _ h; omega
  | succ m ih =>
    intro i slp r0 e0 _ hfail
    have h0 : retriesAgain (f i).2 = true := by simpa using hfail 0 (by omega)
    rcases he : (f i).2 with _ | e
    · rw [he] at h0; simp [retriesAgain] at h0
    · rw [retryLoop_step_retry attempts f m i slp r0 e0 e he h0]
      rcases Nat.eq_zero_or_pos m with hm | hm
      · subst hm
        simp [retryLoop]
      · have hfail' : ∀ j, j < m → retriesAgain (f (i + 1 + j)).2 = true := by
          intro j hj
          have hidx : i + 1 + j = i + (j + 1) := by omega
          rw [hidx]; exact hfail (j + 1) (by omega)
        have hrec := ih (i + 1) (if 0 < i then 2 * slp else slp) (f i).1 (some e) hm hfail'
        have hidx : i + 1 + m - 1 = i + (m + 1) - 1 := by omega
        rw [hidx] at hrec
        simpa using hrec

/-- `retry` exhaustion returns the last attempt's result value. -/
lemma retry_exhaust_result {T : Type} (attempts slp : Nat) (z : T)
    (f : Nat → T × Option PError)
    (ha : 0 < attempts)
    (hfail : ∀ j, j < attempts → retriesAgain (f j).2 = true) :
    (retry attempts slp z f).result = (f (attempts - 1)).1 := by
  have h := retryLoop_exhaust_result attempts f attempts 0 slp z none ha (by simpa using hfail)
  simpa using h

/-- Every run of the loop from a positive index has a delay trace of the
form `[slp, 2*slp, 4*slp, ...]`. -/
lemma retryLoop_delays_pos {T : Type} (attempts : Nat) (f : Nat → T × Option PError) :
    ∀ (remaining i slp : Nat) (r0 : T) (e0 : Option PError), 0 < i →
      ∃ kd, (retryLoop attempts f remaining i slp r0 e0).delays
          = (List.range kd).map (fun j => slp * 2 ^ j) := by
  intro remaining
  induction remaining with
  | zero => intro i slp r0 e0 _; exact ⟨0, by simp [retryLoop]⟩
  | succ m ih =>
    intro i slp r0 e0 hi
    rcases he : (f i).2 with _ | e
    · exact ⟨1, by simp [retryLoop, he, hi, List.range_succ]⟩
    · cases e with
      | status st msg =>
        by_cases hst : st = "SUCCESS"
        · subst hst
          obtain ⟨kd, hkd⟩ := ih (i + 1) (2 * slp) (f i).1 (some (.status "SUCCESS" msg))
            (by omega)
          refine ⟨kd + 1, ?_⟩
          simp [retryLoop, he, hi, hkd, ← range_map_double]
        · exact ⟨1, by simp [retryLoop, he, hi, hst, List.range_succ]⟩
      | server code msg =>
        by_cases hc : isRetryable code = true
        · obtain ⟨kd, hkd⟩ := ih (i + 1) (2 * slp) (f i).1 (some (.server code msg)) (by omega)
          refine ⟨kd + 1, ?_⟩
          simp [retryLoop, he, hi, hc, hkd, ← range_map_double]
        · exact ⟨1, by simp [retryLoop, he, hi, hc, List.range_succ]⟩
      | generic msg =>
        obtain ⟨kd, hkd⟩ := ih (i + 1) (2 * slp) (f i).1 (some (.generic msg)) (by omega)
        refine ⟨kd + 1, ?_⟩
        simp [retryLoop, he, hi, hkd, ← range_map_double]

/-- Every invocation of `retry` produces a delay trace
`[slp, 2*slp, 4*slp, ...]` — in particular the first delay, if any, is the
`slp` argument of this very invocation. -/
lemma retry_delays {T : Type} (attempts slp : Nat) (z : T) (f : Nat → T × Option PError) :
    ∃ kd, (retry attempts slp z f).delays = (List.range kd).map (fun j => slp * 2 ^ j) := by
  cases attempts with
  | zero => exact ⟨0, by simp [retry, retryLoop]⟩
  | succ a =>
    rcases he : (f 0).2 with _ | e
    · exact ⟨0, by simp [retry, retryLoop, he]⟩
    · cases e with
      | status st msg =>
        by_cases hst : st = "SUCCESS"
        · subst hst
          obtain ⟨kd, hkd⟩ := retryLoop_delays_pos (a + 1) f a 1 slp (f 0).1
            (some (.status "SUCCESS" msg)) (by omega)
          exact ⟨kd, by simp [retry, retryLoop, he, hkd]⟩
        · exact ⟨0, by simp [retry, retryLoop, he, hst]⟩
      | server code msg =>
        by_cases hc : isRetryable code = true
        · obtain ⟨kd, hkd⟩ := retryLoop_delays_pos (a + 1) f a 1 slp (f 0).1
            (some (.server code msg)) (by omega)
          exact ⟨kd, by simp [retry, retryLoop, he, hc, hkd]⟩
        · exact ⟨0, by simp [retry, retryLoop, he, hc]⟩
      | generic msg =>
        obtain ⟨kd, hkd⟩ := retryLoop_delays_pos (a + 1) f a 1 slp (f 0).1
          (some (.generic msg)) (by omega)
        exact ⟨kd, by simp [retry, retryLoop, he, hkd]⟩

/-- Unfolding one iteration of `retrySingleLoop` on a failure it does not
classify terminal (anything but a non-retryable `ServerError`). -/
lemma singleLoop_step_retry (attempts : Nat) (f : Nat → Option PError)
    (remaining i slp : Nat) (e0 : Option PError) (e : PError)
    (h : f i = some e) (hr : retriesAgainSingle (f i) = true) :
    retrySingleLoop attempts f (remaining + 1) i slp e0 =
      (let pre : List Nat := if 0 < i then [slp] else []
       let slp' : Nat := if 0 < i then 2 * slp else slp
       let rest := retrySingleLoop attempts f remaining (i + 1) slp' (some e)
       ⟨rest.error, pre ++ rest.delays, rest.attemptsMade + 1⟩) := by
  rw [h] at hr
  cases e with
  | status st msg => simp [retrySingleLoop, h]
  | server code msg =>
    simp only [retriesAgainSingle] at hr
    simp [retrySingleLoop, h, hr]
  | generic msg => simp [retrySingleLoop, h]

/-- Any iteration of the single-return loop makes at least one call. -/
lemma singleLoop_attempts_pos (attempts : Nat) (f : Nat → Option PError)
    (remaining i slp : Nat) (e0 : Option PError) (hrem : 0 < remaining) :
    0 < (retrySingleLoop attempts f remaining i slp e0).attemptsMade := by
  obtain ⟨m, rfl⟩ : ∃ m, remaining = m + 1 := ⟨remaining - 1, by omega⟩
  rcases h : f i with _ | e
  · simp [retrySingleLoop, h]
  · cases e with
    | status st msg => simp [retrySingleLoop, h]
    | server code msg =>
      by_cases hc : isRetryable code = true <;> simp [retrySingleLoop, h, hc]
    | generic msg => simp [retrySingleLoop, h]

/-- Exhaustion of the single-return loop. -/
lemma singleLoop_exhaust (attempts : Nat) (f : Nat → Option PError) :
    ∀ (remaining i slp : Nat) (e0 : Option PError),
      0 < remaining →
      (∀ j, j < remaining → retriesAgainSingle (f (i + j)) = true) →
      (retrySingleLoop attempts f remaining i slp e0).error
          = some (exhaustMsg attempts (f (i + remaining - 1))) ∧
        (retrySingleLoop attempts f remaining i slp e0).attemptsMade = remaining := by
  intro remaining
  induction remaining with
  | zero => intro _ _ _ h; omega
  | succ m ih =>
    intro i slp e0 _ hfail
    have h0 : retriesAgainSingle (f i) = true := by simpa using hfail 0 (by omega)
    rcases he : f i with _ | e
    · rw [he] at h0; simp [retriesAgainSingle] at h0
    · rw [singleLoop_step_retry attempts f m i slp e0 e he h0]
      rcases Nat.eq_zero_or_pos m with hm | hm
      · subst hm
        simp [retrySingleLoop, he]
      · have hfail' : ∀ j, j < m → retriesAgainSingle (f (i + 1 + j)) = true := by
          intro j hj
          have hidx : i + 1 + j = i + (j + 1) := by omega
          rw [hidx]; exact hfail (j + 1) (by omega)
        have hrec := ih (i + 1) (if 0 < i then 2 * slp else slp) (some e) hm hfail'
        have hidx : i + 1 + m - 1 = i + (m + 1) - 1 := by omega
        rw [hidx] at hrec
        exact ⟨by simp [hrec.1], by simp [hrec.2]⟩

/-- `retrySingleReturn` exhaustion. -/
lemma single_exhaust (attempts slp : Nat) (f : Nat → Option PError)
    (ha : 0 < attempts)
    (hfail : ∀ j, j < attempts → retriesAgainSingle (f j) = true) :
    (retrySingleReturn attempts slp f).error
        = some (exhaustMsg attempts (f (attempts - 1))) ∧
      (retrySingleReturn attempts slp f).attemptsMade = attempts := by
  have h := singleLoop_exhaust attempts f attempts 0 slp none ha (by simpa using hfail)
  simpa using h

/-- Delay-trace shape of the single-return loop from a positive index. -/
lemma singleLoop_delays_pos (attempts : Nat) (f : Nat → Option PError) :
    ∀ (remaining i slp : Nat) (e0 : Option PError), 0 < i →
      ∃ kd, (retrySingleLoop attempts f remaining i slp e0).delays
          = (List.range kd).map (fun j => slp * 2 ^ j) := by
  intro remaining
  induction remaining with
  | zero => intro i slp e0 _; exact ⟨0, by simp [retrySingleLoop]⟩
  | succ m ih =>
    intro i slp e0 hi
    rcases he : f i with _ | e
    · exact ⟨1, by simp [retrySingleLoop, he, hi, List.range_succ]⟩
    · cases e with
      | status st msg =>
        obtain ⟨kd, hkd⟩ := ih (i + 1) (2 * slp) (some (.status st msg)) (by omega)
        refine ⟨kd + 1, ?_⟩
        simp [retrySingleLoop, he, hi, hkd, ← range_map_double]
      | server code msg =>
        by_cases hc : isRetryable code = true
        · obtain ⟨kd, hkd⟩ := ih (i + 1) (2 * slp) (some (.server code msg)) (by omega)
          refine ⟨kd + 1, ?_⟩
          simp [retrySingleLoop, he, hi, hc, hkd, ← range_map_double]
        · exact ⟨1, by simp [retrySingleLoop, he, hi, hc, List.range_succ]⟩
      | generic msg =>
        obtain ⟨kd, hkd⟩ := ih (i + 1) (2 * slp) (some (.generic msg)) (by omega)
        refine ⟨kd + 1, ?_⟩
        simp [retrySingleLoop, he, hi, hkd, ← range_map_double]

/-- Every invocation of `retrySingleReturn` produces a delay trace
`[slp, 2*slp, 4*slp, ...]`. -/
lemma single_delays (attempts slp : Nat) (f : Nat → Option PError) :
    ∃ kd, (retrySingleReturn attempts slp f).delays
        = (List.range kd).map (fun j => slp * 2 ^ j) := by
  cases attempts with
  | zero => exact ⟨0, by simp [retrySingleReturn, retrySingleLoop]⟩
  | succ a =>
    rcases he : f 0 with _ | e
    · exact ⟨0, by simp [retrySingleReturn, retrySingleLoop, he]⟩
    · cases e with
      | status st msg =>
        obtain ⟨kd, hkd⟩ := singleLoop_delays_pos (a + 1) f a 1 slp
          (some (.status st msg)) (by omega)
        exact ⟨kd, by simp [retrySingleReturn, retrySingleLoop, he, hkd]⟩
      | server code msg =>
        by_cases hc : isRetryable code = true
        · obtain ⟨kd, hkd⟩ := singleLoop_delays_pos (a + 1) f a 1 slp
            (some (.server code msg)) (by omega)
          exact ⟨kd, by simp [retrySingleReturn, retrySingleLoop, he, hc, hkd]⟩
        · exact ⟨0, by simp [retrySingleReturn, retrySingleLoop, he, hc]⟩
      | generic msg =>
        obtain ⟨kd, hkd⟩ := singleLoop_delays_pos (a + 1) f a 1 slp
          (some (.generic msg)) (by omega)
        exact ⟨kd, by simp [retrySingleReturn, retrySingleLoop, he, hkd]⟩

/-- A status-shaped failure makes `retrySingleReturn` keep going: with at
least two attempts allowed, at least two calls are made. -/
lemma single_status_retries (attempts slp : Nat) (f : Nat → Option PError)
    (st msg : String) (ha : 2 ≤ attempts) (h0 : f 0 = some (.status st msg)) :
    2 ≤ (retrySingleReturn attempts slp f).attemptsMade := by
  obtain ⟨a, rfl⟩ : ∃ a, attempts = a + 2 := ⟨attempts - 2, by omega⟩
  rw [retrySingleReturn, singleLoop_step_retry (a + 2) f (a + 1) 0 slp none
    (.status st msg) h0 (by simp [h0, retriesAgainSingle])]
  have hrest := singleLoop_attempts_pos (a + 2) f (a + 1) 1
    (if 0 < 0 then 2 * slp else slp) (some (.status st msg)) (by omega)
  simp only [lt_self_iff_false, if_false, Nat.zero_add] at hrest ⊢
  omega

/-- `isRetryable` accepts exactly the code 503. -/
lemma isRetryable_iff (code : Nat) : isRetryable code = true ↔ code = 503 := by
  simp [isRetryable, retryableCodes, List.contains]

/-- The `Read` scan leaves the state untouched when no listed record has
the stored identifier. -/
lemma readApply_no_match : ∀ (records : List Record) (data : RecordData),
    (∀ rec ∈ records, rec.id ≠ data.id) → readApply records data = data := by
  intro records
  induction records with
  | nil => intro data _; rfl
  | cons r rs ih =>
    intro data h
    have hr : ¬ r.id = data.id := h r (by simp)
    have hstep : readApply (r :: rs) data = readApply rs data := by
      simp [readApply, hr]
    rw [hstep]
    exact ih data fun rec hrec => h rec (List.mem_cons_of_mem _ hrec)

/-- `strings.ReplaceAll` leaves an input without any occurrence of `old`
unmodified. -/
lemma replaceAllAux_no_occurrence (old new : List Char) :
    ∀ (fuel : Nat) (s : List Char), hasOccurrence old s = false →
      replaceAllAux old new fuel s = s := by
  intro fuel
  induction fuel with
  | zero => intro s _; rfl
  | succ fuel ih =>
    intro s h
    cases s with
    | nil => rfl
    | cons c rest =>
      rw [hasOccurrence, Bool.or_eq_false_iff] at h
      rw [replaceAllAux, if_neg (by simp [h.1]), ih rest h.2]

/-! Claims. -/

/-- C1 counterexample: `retrySingleReturn` (used by Update and Delete) does
NOT stop on an API-status failure whose status is not `"SUCCESS"`: with two
attempts allowed and every attempt failing with status `"ERROR"`, it makes
two attempts, sleeps once, and returns the exhaustion error — not the
claimed single attempt with an error wrapping the reported reason. -/
theorem c1_counterexample :
    retrySingleReturn 2 10 (fun _ => some (.status "ERROR" "the reason"))
        = ⟨some "after 2 attempts, last error: the reason", [10], 2⟩ ∧
      ¬ ((retrySingleReturn 2 10 (fun _ => some (.status "ERROR" "the reason"))).attemptsMade = 1 ∧
         (retrySingleReturn 2 10 (fun _ => some (.status "ERROR" "the reason"))).delays = [] ∧
         (retrySingleReturn 2 10 (fun _ => some (.status "ERROR" "the reason"))).error
             = some "cannot be retried: the reason") := by
  constructor
  · decide
  · decide

/-- C1 (amended): only the value-returning executor `retry` classifies a
failed attempt carrying an API status other than `"SUCCESS"` as terminal —
it stops after that single attempt with no delays, wrapping the reported
reason.  The failure-only executor `retrySingleReturn` used by Update and
Delete performs no API-status check: such a failure is treated as
retryable, so with at least two attempts allowed it keeps trying. -/
theorem c1_amended :
    (∀ (T : Type) (attempts slp : Nat) (z : T) (f : Nat → T × Option PError)
        (st msg : String),
        0 < attempts → (f 0).2 = some (.status st msg) → st ≠ "SUCCESS" →
        retry attempts slp z f
          = ⟨(f 0).1, some ("cannot be retried: " ++ msg), [], 1⟩) ∧
    (∀ (attempts slp : Nat) (f : Nat → Option PError) (st msg : String),
        2 ≤ attempts → f 0 = some (.status st msg) →
        2 ≤ (retrySingleReturn attempts slp f).attemptsMade) := by
  constructor
  · intro T attempts slp z f st msg ha h0 hst
    exact retry_first_terminal_status attempts slp z f st msg ha h0 hst
  · intro attempts slp f st msg ha h0
    exact single_status_retries attempts slp f st msg ha h0

/-- C1 witness: the amended statement applied at concrete inputs. -/
theorem c1_amended_witness :
    retry 3 10 (0 : Int) (fun _ => ((0 : Int), some (.status "ERROR" "why")))
        = ⟨0, some "cannot be retried: why", [], 1⟩ ∧
      2 ≤ (retrySingleReturn 2 10 (fun _ => some (.status "ERROR" "why"))).attemptsMade := by
  constructor
  · have h := c1_amended.1 Int 3 10 0
      (fun _ => ((0 : Int), some (.status "ERROR" "why"))) "ERROR" "why"
      (by omega) rfl (by decide)
    rw [h]; decide
  · exact c1_amended.2 2 10 (fun _ => some (.status "ERROR" "why")) "ERROR" "why"
      (by omega) rfl

/-- C2: with the stored identifier `"abc"` (not a decimal integer) and one
attempt allowed, `Update` and `Delete` each add the conversion diagnostic
but do NOT abort: the `EditRecord` / `DeleteRecord` call is still made,
with the identifier's zero value 0 — contradicting the claimed
"no API call attempted". -/
theorem c2_api_call_made_on_bad_id :
    (Update 1 10
        { name := "www", typ := "A", content := "1.2.3.4", ttl := "600",
          domain := "example.com" } "abc" (fun _ => none)).apiCalls
        = [.editRecord "example.com" 0
            { name := "www", typ := "A", content := "1.2.3.4", ttl := "600" }] ∧
      ("Error converting ID to a string",
          "Error: strconv.Atoi: parsing \"abc\": invalid syntax")
        ∈ (Update 1 10
            { name := "www", typ := "A", content := "1.2.3.4", ttl := "600",
              domain := "example.com" } "abc" (fun _ => none)).diags ∧
      (Delete 1 10 { id := "abc", domain := "example.com" } (fun _ => none)).apiCalls
        = [.deleteRecord "example.com" 0] ∧
      ("Error converting ID to a string",
          "Error: strconv.Atoi: parsing \"abc\": invalid syntax")
        ∈ (Delete 1 10 { id := "abc", domain := "example.com" } (fun _ => none)).diags := by
  refine ⟨by decide, by decide, by decide, by decide⟩

/-- C3 counterexample: a Create whose create-record call fails terminally
does NOT leave the identifier unset — line 141 runs unconditionally, so the
persisted state carries id `"0"` (the `fmt.Sprint` of the int zero value),
alongside the wrapped error diagnostic. -/
theorem c3_counterexample :
    ((Create 1 10
          { name := "www", typ := "A", content := "1.2.3.4", ttl := "600",
            domain := "example.com" }
          (fun _ => ((0 : Int), some (.status "ERROR" "bad")))).state.map RecordData.id)
        = some "0" ∧
      "0" ≠ "" ∧
      (Create 1 10
          { name := "www", typ := "A", content := "1.2.3.4", ttl := "600",
            domain := "example.com" }
          (fun _ => ((0 : Int), some (.status "ERROR" "bad")))).diags
        = [("Error creating DNS Record", "Error: cannot be retried: bad")] := by
  refine ⟨by decide, by decide, by decide⟩

/-- C3 (amended): on success — at the first attempt or after any number of
retryable failures — the state is persisted with the identifier assigned
the decimal string of the response id, with no diagnostic and one create
call per attempt.  On failure — a terminal API-status failure, a terminal
server-code failure, or retry exhaustion — the wrapped error is surfaced
as a diagnostic, but the state is still persisted with the identifier
assigned the decimal string of the client's last returned value (the zero
value 0 when creation failed), not left unset. -/
theorem c3_amended :
    (∀ (attempts slp k : Nat) (cfg : RecordData) (f : Nat → Int × Option PError) (v : Int),
        k < attempts →
        (∀ j, j < k → retriesAgain (f j).2 = true) →
        f k = (v, none) →
        Create attempts slp cfg f
          = ⟨[], some { cfg with id := toString v },
              List.replicate (k + 1) (.createRecord cfg.domain (buildRecord cfg))⟩) ∧
    (∀ (attempts slp : Nat) (cfg : RecordData) (f : Nat → Int × Option PError)
        (v : Int) (st msg : String),
        0 < attempts → f 0 = (v, some (.status st msg)) → st ≠ "SUCCESS" →
        Create attempts slp cfg f
          = ⟨[("Error creating DNS Record", "Error: " ++ ("cannot be retried: " ++ msg))],
              some { cfg with id := toString v },
              [.createRecord cfg.domain (buildRecord cfg)]⟩) ∧
    (∀ (attempts slp : Nat) (cfg : RecordData) (f : Nat → Int × Option PError)
        (v : Int) (code : Nat) (msg : String),
        0 < attempts → f 0 = (v, some (.server code msg)) → isRetryable code = false →
        Create attempts slp cfg f
          = ⟨[("Error creating DNS Record",
                "Error: " ++ ("received error is not retryable: " ++ msg))],
              some { cfg with id := toString v },
              [.createRecord cfg.domain (buildRecord cfg)]⟩) ∧
    (∀ (attempts slp : Nat) (cfg : RecordData) (f : Nat → Int × Option PError),
        0 < attempts →
        (∀ j, j < attempts → retriesAgain (f j).2 = true) →
        Create attempts slp cfg f
          = ⟨[("Error creating DNS Record",
                "Error: " ++ ("after " ++ toString attempts ++ " attempts, last error: "
                  ++ errMsgOpt (f (attempts - 1)).2))],
              some { cfg with id := toString (f (attempts - 1)).1 },
              List.replicate attempts (.createRecord cfg.domain (buildRecord cfg))⟩) := by
  refine ⟨?_, ?_, ?_, ?_⟩
  · intro attempts slp k cfg f v hk hfail hsucc
    have h := retry_success attempts slp k (0 : Int) f hk hfail (by rw [hsucc])
    rw [hsucc] at h
    simp [Create, h]
  · intro attempts slp cfg f v st msg ha h0 hst
    have h := retry_first_terminal_status attempts slp (0 : Int) f st msg ha (by rw [h0]) hst
    rw [h0] at h
    simp [Create, h]
  · intro attempts slp cfg f v code msg ha h0 hc
    have h := retry_first_terminal_server attempts slp (0 : Int) f code msg ha (by rw [h0]) hc
    rw [h0] at h
    simp [Create, h]
  · intro attempts slp cfg f ha hfail
    have he := retry_exhaust attempts slp (0 : Int) f ha hfail
    have hr := retry_exhaust_result attempts slp (0 : Int) f ha hfail
    simp [Create, he.1, he.2, hr, exhaustMsg]

/-- C3 witness: the amended statement applied at concrete inputs — success
at the first attempt, success after one retryable failure, terminal
status failure, terminal server-code failure, and exhaustion. -/
theorem c3_amended_witness :
    Create 1 10 { name := "www", domain := "example.com" }
        (fun _ => ((123 : Int), none))
        = ⟨[], some { name := "www", domain := "example.com", id := "123" },
            [.createRecord "example.com" { name := "www" }]⟩ ∧
      Create 2 10 { name := "www", domain := "example.com" }
          (fun j => if j = 0 then ((0 : Int), some (.server 503 "busy")) else (55, none))
        = ⟨[], some { name := "www", domain := "example.com", id := "55" },
            [.createRecord "example.com" { name := "www" },
             .createRecord "example.com" { name := "www" }]⟩ ∧
      Create 1 10 { name := "www", domain := "example.com" }
          (fun _ => ((0 : Int), some (.status "ERROR" "bad")))
        = ⟨[("Error creating DNS Record", "Error: cannot be retried: bad")],
            some { name := "www", domain := "example.com", id := "0" },
            [.createRecord "example.com" { name := "www" }]⟩ ∧
      Create 1 10 { name := "www", domain := "example.com" }
          (fun _ => ((0 : Int), some (.server 500 "oops")))
        = ⟨[("Error creating DNS Record", "Error: received error is not retryable: oops")],
            some { name := "www", domain := "example.com", id := "0" },
            [.createRecord "example.com" { name := "www" }]⟩ ∧
      Create 2 10 { name := "www", domain := "example.com" }
          (fun _ => ((0 : Int), some (.generic "g")))
        = ⟨[("Error creating DNS Record", "Error: after 2 attempts, last error: g")],
            some { name := "www", domain := "example.com", id := "0" },
            [.createRecord "example.com" { name := "www" },
             .createRecord "example.com" { name := "www" }]⟩ := by
  refine ⟨?_, ?_, ?_, ?_, ?_⟩
  · have h := c3_amended.1 1 10 0 { name := "www", domain := "example.com" }
      (fun _ => ((123 : Int), none)) 123 (by omega) (by omega) rfl
    rw [h]; decide
  · have h := c3_amended.1 2 10 1 { name := "www", domain := "example.com" }
      (fun j => if j = 0 then ((0 : Int), some (.server 503 "busy")) else (55, none)) 55
      (by omega) (by intro j hj; interval_cases j <;> decide) rfl
    rw [h]; decide
  · have h := c3_amended.2.1 1 10 { name := "www", domain := "example.com" }
      (fun _ => ((0 : Int), some (.status "ERROR" "bad"))) 0 "ERROR" "bad"
      (by omega) rfl (by decide)
    rw [h]; decide
  · have h := c3_amended.2.2.1 1 10 { name := "www", domain := "example.com" }
      (fun _ => ((0 : Int), some (.server 500 "oops"))) 0 500 "oops"
      (by omega) rfl (by decide)
    rw [h]; decide
  · have h := c3_amended.2.2.2 2 10 { name := "www", domain := "example.com" }
      (fun _ => ((0 : Int), some (.generic "g")))
      (by omega) (by intro j hj; rfl)
    rw [h]; decide

/-- C4 counterexample: the name derivation is `strings.ReplaceAll`, which
removes EVERY occurrence of `".<domain>"`, not only a trailing suffix: an
input whose suffix does not match is still modified, and an interior
occurrence is removed along with the suffix. -/
theorem c4_counterexample :
    nameFromRemote "x.example.com.y" "example.com" = "x.y" ∧
      "x.y" ≠ "x.example.com.y" ∧
      nameFromRemote "a.example.com.b.example.com" "example.com" = "a.b" ∧
      "a.b" ≠ "a.example.com.b" := by
  refine ⟨by decide, by decide, by decide, by decide⟩

/-- C4 (amended): the derivation yields the empty string when the remote
name equals the domain exactly; otherwise it removes every non-overlapping
occurrence of the substring `".<domain>"` (so `"sub.example.com"` maps to
`"sub"`), and an input containing no occurrence of `".<domain>"` at all is
returned unmodified. -/
theorem c4_amended :
    (∀ d : String, nameFromRemote d d = "") ∧
    (∀ name domain : String, name ≠ domain →
        hasOccurrence ("." ++ domain).data name.data = false →
        nameFromRemote name domain = name) ∧
    nameFromRemote "sub.example.com" "example.com" = "sub" ∧
    nameFromRemote "x.example.com.y" "example.com" = "x.y" := by
  refine ⟨?_, ?_, by decide, by decide⟩
  · intro d; simp [nameFromRemote]
  · intro name domain hne hocc
    rw [nameFromRemote, if_neg fun h => hne h.symm, replaceAll,
      replaceAllAux_no_occurrence _ _ _ _ hocc]

/-- C4 witness: the amended statement applied at concrete inputs. -/
theorem c4_amended_witness :
    nameFromRemote "example.com" "example.com" = "" ∧
      nameFromRemote "www" "example.com" = "www" := by
  refine ⟨c4_amended.1 "example.com", ?_⟩
  exact c4_amended.2.1 "www" "example.com" (by decide) (by decide)

/-- C5: the package-level initial delay is the constant 10 (Go passes
`int` by value, so `sleep *= 2` inside an executor only mutates the
callee's local copy and the package variable is never written), and every
invocation of either executor produces a delay trace
`[slp, 2*slp, 4*slp, ...]` built from its own `slp` argument — so the
first inter-attempt delay of every invocation equals the initial delay
passed in, independent of prior invocations. -/
theorem c5_no_backoff_state_across_invocations :
    sleep = 10 ∧
    (∀ (T : Type) (attempts slp : Nat) (z : T) (f : Nat → T × Option PError),
        ∃ kd, (retry attempts slp z f).delays
            = (List.range kd).map (fun j => slp * 2 ^ j)) ∧
    (∀ (attempts slp : Nat) (f : Nat → Option PError),
        ∃ kd, (retrySingleReturn attempts slp f).delays
            = (List.range kd).map (fun j => slp * 2 ^ j)) ∧
    (∀ (T : Type) (attempts slp : Nat) (z : T) (f : Nat → T × Option PError),
        (retry attempts slp z f).delays.head? = none ∨
          (retry attempts slp z f).delays.head? = some slp) ∧
    (∀ (attempts slp : Nat) (f : Nat → Option PError),
        (retrySingleReturn attempts slp f).delays.head? = none ∨
          (retrySingleReturn attempts slp f).delays.head? = some slp) := by
  refine ⟨rfl, fun T a s z f => retry_delays a s z f,
    fun a s f => single_delays a s f, ?_, ?_⟩
  · intro T a s z f
    obtain ⟨kd, hkd⟩ := retry_delays a s z f
    cases kd with
    | zero => left; simp [hkd]
    | succ k =>
      right
      rw [hkd, List.range_succ_eq_map]
      simp
  · intro a s f
    obtain ⟨kd, hkd⟩ := single_delays a s f
    cases kd with
    | zero => left; simp [hkd]
    | succ k =>
      right
      rw [hkd, List.range_succ_eq_map]
      simp

/-- C6: for `k < attempts` fall-through ("retryable") failures followed by
a success, `retry` returns the successful attempt's result with no error,
makes `k + 1` attempts, and performs exactly `k` delays, the `j`-th
(0-based) being `slp * 2^j` — i.e. the 1-based `i`-th delay is
`initialDelay * 2^(i-1)`, and attempt 1 runs with no preceding delay. -/
theorem c6_retryable_then_success (T : Type) (attempts slp k : Nat) (z : T)
    (f : Nat → T × Option PError)
    (hk : k < attempts)
    (hfail : ∀ j, j < k → retriesAgain (f j).2 = true)
    (hsucc : (f k).2 = none) :
    retry attempts slp z f
      = ⟨(f k).1, none, (List.range k).map (fun j => slp * 2 ^ j), k + 1⟩ :=
  retry_success attempts slp k z f hk hfail hsucc

/-- C6 witness: two 503 failures then success, with `attempts = 3`. -/
theorem c6_retryable_then_success_witness :
    retry 3 10 (0 : Nat)
        (fun j => if j < 2 then ((0 : Nat), some (.server 503 "boom")) else (7, none))
      = ⟨7, none, [10, 20], 3⟩ := by
  have h := c6_retryable_then_success Nat 3 10 2 0
    (fun j => if j < 2 then ((0 : Nat), some (.server 503 "boom")) else (7, none))
    (by omega) (by intro j hj; interval_cases j <;> decide) (by decide)
  rw [h]; decide

/-- C7: the retryable transport/server code set is exactly `{503}`; a
first attempt failing with a server code other than 503 makes `retry` stop
after exactly one attempt with no delays and the non-retryable error wrap,
while a first attempt failing with code 503 is retried (at least two
attempts are made when allowed). -/
theorem c7_server_code_classification :
    (∀ code : Nat, isRetryable code = true ↔ code = 503) ∧
    (∀ (T : Type) (attempts slp : Nat) (z : T) (f : Nat → T × Option PError)
        (code : Nat) (msg : String),
        0 < attempts → (f 0).2 = some (.server code msg) → code ≠ 503 →
        retry attempts slp z f
          = ⟨(f 0).1, some ("received error is not retryable: " ++ msg), [], 1⟩) ∧
    (∀ (T : Type) (attempts slp : Nat) (z : T) (f : Nat → T × Option PError)
        (msg : String),
        2 ≤ attempts → (f 0).2 = some (.server 503 msg) →
        2 ≤ (retry attempts slp z f).attemptsMade) := by
  refine ⟨isRetryable_iff, ?_, ?_⟩
  · intro T attempts slp z f code msg ha h0 hc
    have hfalse : isRetryable code = false := by
      cases h : isRetryable code
      · rfl
      · exact absurd ((isRetryable_iff code).1 h) hc
    exact retry_first_terminal_server attempts slp z f code msg ha h0 hfalse
  · intro T attempts slp z f msg ha h0
    obtain ⟨a, rfl⟩ : ∃ a, attempts = a + 2 := ⟨attempts - 2, by omega⟩
    rw [retry, retryLoop_step_retry (a + 2) f (a + 1) 0 slp z none (.server 503 msg) h0
      (by rw [h0]; simp only [retriesAgain]; decide)]
    have hrest := retryLoop_attempts_pos (a + 2) f (a + 1) 1
      (if 0 < 0 then 2 * slp else slp) (f 0).1 (some (.server 503 msg)) (by omega)
    simp only [lt_self_iff_false, if_false, Nat.zero_add] at hrest ⊢
    omega

/-- C7 witness: the classification applied at concrete inputs. -/
theorem c7_server_code_classification_witness :
    retry 5 10 (0 : Nat) (fun _ => ((0 : Nat), some (.server 500 "oops")))
        = ⟨0, some "received error is not retryable: oops", [], 1⟩ ∧
      2 ≤ (retry 2 10 (0 : Nat) (fun _ => ((0 : Nat), some (.server 503 "slow")))).attemptsMade := by
  constructor
  · have h := c7_server_code_classification.2.1 Nat 5 10 0
      (fun _ => ((0 : Nat), some (.server 500 "oops"))) 500 "oops"
      (by omega) rfl (by omega)
    rw [h]; decide
  · exact c7_server_code_classification.2.2 Nat 2 10 0
      (fun _ => ((0 : Nat), some (.server 503 "slow"))) "slow" (by omega) rfl

/-- C8: when all `attempts` attempts fail and fall through classification,
both executors return an error naming the attempt count and the last
failure's message. -/
theorem c8_exhaustion_message :
    (∀ (T : Type) (attempts slp : Nat) (z : T) (f : Nat → T × Option PError),
        0 < attempts → (∀ j, j < attempts → retriesAgain (f j).2 = true) →
        (retry attempts slp z f).error
          = some ("after " ++ toString attempts ++ " attempts, last error: "
              ++ errMsgOpt (f (attempts - 1)).2)) ∧
    (∀ (attempts slp : Nat) (f : Nat → Option PError),
        0 < attempts → (∀ j, j < attempts → retriesAgainSingle (f j) = true) →
        (retrySingleReturn attempts slp f).error
          = some ("after " ++ toString attempts ++ " attempts, last error: "
              ++ errMsgOpt (f (attempts - 1)))) := by
  constructor
  · intro T attempts slp z f ha hf
    simpa [exhaustMsg] using (retry_exhaust attempts slp z f ha hf).1
  · intro attempts slp f ha hf
    simpa [exhaustMsg] using (single_exhaust attempts slp f ha hf).1

/-- C8 witness: exhaustion at concrete inputs, for both executors. -/
theorem c8_exhaustion_message_witness :
    (retry 2 10 (0 : Nat)
        (fun j => ((0 : Nat), some (.generic (if j = 0 then "first" else "second"))))).error
        = some "after 2 attempts, last error: second" ∧
      (retrySingleReturn 2 10 (fun _ => some (.server 503 "slow"))).error
        = some "after 2 attempts, last error: slow" := by
  constructor
  · have h := c8_exhaustion_message.1 Nat 2 10 0
      (fun j => ((0 : Nat), some (.generic (if j = 0 then "first" else "second"))))
      (by omega) (by intro j hj; interval_cases j <;> decide)
    rw [h]; decide
  · have h := c8_exhaustion_message.2 2 10 (fun _ => some (.server 503 "slow"))
      (by omega) (by intro j hj; rfl)
    rw [h]; decide

/-- C9: when the record listing succeeds and contains no entry whose
identifier equals the stored one, `Read` persists the state with every
field (id, name, type, content, ttl, notes, prio, domain) exactly as it
was, and adds no diagnostic. -/
theorem c9_read_no_match_leaves_state (attempts slp : Nat) (data : RecordData)
    (retrieveF : Nat → List Record × Option PError)
    (hok : (retry attempts slp ([] : List Record)
        (fun i => getRecords (retrieveF i))).error = none)
    (hmiss : ∀ rec ∈ (retry attempts slp ([] : List Record)
        (fun i => getRecords (retrieveF i))).result, rec.id ≠ data.id) :
    (Read attempts slp data retrieveF).state = some data ∧
      (Read attempts slp data retrieveF).diags = [] := by
  constructor
  · simp only [Read]
    rw [readApply_no_match _ _ hmiss]
  · simp only [Read, hok]

/-- C9 witness: a successful listing containing only a record with a
different identifier leaves the state untouched. -/
theorem c9_read_no_match_leaves_state_witness :
    (Read 1 10 { id := "42", domain := "example.com" }
        (fun _ => ([⟨"7", "n.example.com", "A", "1.1.1.1", "600", "", ""⟩], none))).state
      = some { id := "42", domain := "example.com" } ∧
    (Read 1 10 { id := "42", domain := "example.com" }
        (fun _ => ([⟨"7", "n.example.com", "A", "1.1.1.1", "600", "", ""⟩], none))).diags
      = [] :=
  c9_read_no_match_leaves_state 1 10 { id := "42", domain := "example.com" }
    (fun _ => ([⟨"7", "n.example.com", "A", "1.1.1.1", "600", "", ""⟩], none))
    (by decide) (by decide)

/-- C10: in `retry`, a failed attempt carrying the API-status shape with
status exactly `"SUCCESS"` is not classified terminal: it consumes an
attempt like an unclassified failure, and a run of such failures exhausts
all attempts and reports the exhaustion error. -/
theorem c10_success_status_retried (T : Type) (attempts slp : Nat) (z : T)
    (f : Nat → T × Option PError)
    (ha : 0 < attempts)
    (hall : ∀ j, j < attempts → ∃ m, (f j).2 = some (.status "SUCCESS" m)) :
    (retry attempts slp z f).attemptsMade = attempts ∧
      (retry attempts slp z f).error
        = some ("after " ++ toString attempts ++ " attempts, last error: "
            ++ errMsgOpt (f (attempts - 1)).2) := by
  have hf : ∀ j, j < attempts → retriesAgain (f j).2 = true := by
    intro j hj
    obtain ⟨m, hm⟩ := hall j hj
    rw [hm]
    simp [retriesAgain]
  have h := retry_exhaust attempts slp z f ha hf
  exact ⟨h.2, by simpa [exhaustMsg] using h.1⟩

/-- C10 witness: two `"SUCCESS"`-status failures exhaust two attempts. -/
theorem c10_success_status_retried_witness :
    (retry 2 10 (0 : Nat) (fun _ => ((0 : Nat), some (.status "SUCCESS" "odd")))).attemptsMade
        = 2 ∧
      (retry 2 10 (0 : Nat) (fun _ => ((0 : Nat), some (.status "SUCCESS" "odd")))).error
        = some "after 2 attempts, last error: odd" := by
  have h := c10_success_status_retried Nat 2 10 0
    (fun _ => ((0 : Nat), some (.status "SUCCESS" "odd")))
    (by omega) (by intro j hj; exact ⟨"odd", rfl⟩)
  exact ⟨h.1, by rw [h.2]; decide⟩

end Porkbun
